import Mathlib

/-!
Verification of the `se_agents` conversational agent library.

This file gives a shallow embedding of the core logic of
`src/se_agents/agent.py`, `src/se_agents/tools.py` and
`src/se_agents/schemas.py`:

* the Python string primitives the code relies on (`str.split`,
  `str.strip`, `str.lower`, substring tests, `int()` parsing), modelled
  over the ASCII character set that all inputs in this development use;
* the streaming tokenizer `re.findall(r"(\s*\S+\s*|\s+)", chunk)`;
* the tag-aware token buffer of `Agent.run_stream` (the per-token state
  machine with `halted` / `tag_found` / `thinking_found` / `tool_found`
  flags and the `tokens_since_halted` counter);
* `Agent._parse_tool_call` (code-block extraction, thinking-tag removal,
  the `<tool_call>` span and inner-tag regexes, and the
  `ElementTree.fromstring` parse of the parameter fragment);
* `Agent._execute_tool` and the history-feedback envelope of
  `Agent.run_stream`, together with the event contents built in
  `se_agents/schemas.py`;
* `Tool._process_parameters` / `Tool._convert_to_list`;
* `Agent.total_token_count` and `Agent._truncate_context_window`.

Exceptions of the Python code are modelled with `Except PyExc`.
-/

set_option maxRecDepth 4000

namespace SEAgents

/-! ## Python string primitives (ASCII scope) -/

/-- Python's `\s` / `str.isspace` character class, restricted to ASCII
(the inputs in this development contain no non-ASCII whitespace). -/
def pyIsSpace (c : Char) : Bool :=
  c = ' ' || c = '\t' || c = '\n' || c = '\r' || c = '\x0b' || c = '\x0c'

/-- `listIsPrefixOf p s` decides whether `p` is a prefix of `s`. -/
def listIsPrefixOf : List Char → List Char → Bool
  | [], _ => true
  | _ :: _, [] => false
  | p :: ps, c :: cs => p = c && listIsPrefixOf ps cs

/-- `listContainsSub pat s` decides Python's `pat in s` substring test. -/
def listContainsSub (pat : List Char) : List Char → Bool
  | [] => listIsPrefixOf pat []
  | c :: cs => listIsPrefixOf pat (c :: cs) || listContainsSub pat cs

/-- Python's `pat in s` on strings. -/
def strContains (s pat : String) : Bool :=
  listContainsSub pat.toList s.toList

/-- Python's `str.strip()` on a character list. -/
def pyStripL (cs : List Char) : List Char :=
  ((cs.dropWhile pyIsSpace).reverse.dropWhile pyIsSpace).reverse

/-- Python's `str.strip()`. -/
def pyStrip (s : String) : String :=
  ⟨pyStripL s.toList⟩

/-- Python's `str.lower()` (ASCII case mapping). -/
def pyLower (s : String) : String :=
  ⟨s.toList.map Char.toLower⟩

/-- Python's `str.split(",")`: split at every comma, keeping empty pieces. -/
def splitOnComma : List Char → List (List Char)
  | [] => [[]]
  | c :: cs =>
    if c = ',' then [] :: splitOnComma cs
    else
      match splitOnComma cs with
      | w :: ws => (c :: w) :: ws
      | [] => [[c]]

/-- Python's `str.split(",")` on strings. -/
def pySplitComma (s : String) : List String :=
  (splitOnComma s.toList).map fun l => ⟨l⟩

/-- Helper for `pySplitWS`: `cur` is the (reversed) word being accumulated. -/
def pySplitWSAux : List Char → List Char → List (List Char)
  | [], cur => if cur.isEmpty then [] else [cur.reverse]
  | c :: cs, cur =>
    if pyIsSpace c then
      if cur.isEmpty then pySplitWSAux cs [] else cur.reverse :: pySplitWSAux cs []
    else pySplitWSAux cs (c :: cur)

/-- Python's whitespace `str.split()` (no separator): the maximal runs of
non-whitespace characters, with empty pieces dropped. -/
def pySplitWS (s : String) : List String :=
  (pySplitWSAux s.toList []).map fun l => ⟨l⟩

/-- Independent word-count: the number of positions starting a maximal
nonempty run of non-whitespace characters.  The flag records whether the
previous character was non-whitespace. -/
def countWordStarts : Bool → List Char → Nat
  | _, [] => 0
  | prevNonWS, c :: cs =>
    (if !pyIsSpace c && !prevNonWS then 1 else 0) + countWordStarts (!pyIsSpace c) cs

/-- One step of the streaming tokenizer
`re.findall(r"(\s*\S+\s*|\s+)", chunk)` (agent.py line 331): each token is
an optional leading whitespace run, a maximal non-whitespace run, and the
maximal following whitespace run; a pure-whitespace remainder is one token.
`fuel` only forces termination (any `fuel ≥ cs.length` computes the value). -/
def reSplitTokensAux : Nat → List Char → List (List Char)
  | 0, _ => []
  | _, [] => []
  | fuel + 1, cs =>
    let w := cs.takeWhile pyIsSpace
    let r1 := cs.dropWhile pyIsSpace
    match r1 with
    | [] => [w]
    | _ :: _ =>
      let word := r1.takeWhile (fun c => !pyIsSpace c)
      let r2 := r1.dropWhile (fun c => !pyIsSpace c)
      let t := r2.takeWhile pyIsSpace
      let r3 := r2.dropWhile pyIsSpace
      (w ++ word ++ t) :: reSplitTokensAux fuel r3

/-- The streaming tokenizer applied to one upstream fragment. -/
def reSplitTokens (s : String) : List String :=
  (reSplitTokensAux s.toList.length s.toList).map fun l => ⟨l⟩

/-- First occurrence of `pat` as a substring: returns the part before the
match and the part after the match. -/
def splitAtSub (pat : List Char) : List Char → Option (List Char × List Char)
  | [] => if listIsPrefixOf pat [] then some ([], []) else none
  | c :: cs =>
    if listIsPrefixOf pat (c :: cs) then some ([], (c :: cs).drop pat.length)
    else (splitAtSub pat cs).map fun p => (c :: p.1, p.2)

/-- `int(value)` on a string: strip whitespace, optional sign, then a
nonempty digit run (Python also allows single underscores between digits). -/
def pyDigitsVal : List Char → Option Nat
  | [] => none
  | cs => go cs true 0 false
where
  go : List Char → Bool → Nat → Bool → Option Nat
  | [], _, acc, seen => if seen then some acc else none
  | c :: cs, afterSep, acc, seen =>
    if c.isDigit then go cs false (acc * 10 + (c.toNat - 48)) true
    else if c = '_' then
      -- an underscore must be between digits
      if afterSep || !seen then none
      else match cs with
        | [] => none
        | _ => go cs true acc seen
    else none

/-- Python `int(s)` for a string argument. -/
def pyParseInt (s : String) : Option Int :=
  match pyStripL s.toList with
  | '-' :: rest => (pyDigitsVal rest).map fun n => -(n : Int)
  | '+' :: rest => (pyDigitsVal rest).map fun n => (n : Int)
  | rest => (pyDigitsVal rest).map fun n => (n : Int)

/-! ## Data model -/

/-- One entry of a tool's `parameters` dict (se_agents/tools.py): the
per-parameter config dict with keys `type`, `description`, `required`.
`type?` models `config.get("type")` (`none` when the key is absent);
`required` models `config.get("required", False)`. -/
structure ParamConfig where
  type? : Option String
  description : String
  required : Bool
deriving DecidableEq, Repr

/-- A registered tool (class `Tool` of se_agents/tools.py).  `pyClass` is
the Python class name of the instance (used in runtime error messages).
The class defines the methods `_process_parameters`, `_convert_to_list`
and `execute`, embedded below; it defines no `validate_parameters`
attribute. -/
structure ToolDef where
  pyClass : String
  name : String
  description : String
  parameters : List (String × ParamConfig)  -- insertion-ordered dict
  stream : Bool := false
  paramStream : Option String := none
deriving DecidableEq, Repr

/-- A Python value flowing through parameter processing. -/
inductive PyValue where
  | str (s : String)
  | int (n : Int)
  | bool (b : Bool)
  | list (l : List String)
deriving DecidableEq, Repr

/-- A raised Python exception (constructor = exception class). -/
inductive PyExc where
  | valueError (msg : String)
  | keyError (msg : String)
  | typeError (msg : String)
  | attributeError (msg : String)
deriving DecidableEq, Repr

/-- A history entry (the `{"role": ..., "content": ...}` dicts of
`Agent.messages`). -/
structure Message where
  role : String
  content : String
deriving DecidableEq, Repr

/-- The `type` field of `ResponseEvent` (se_agents/schemas.py) plus
`thinking`, which agent.py line 394 passes as a type as well. -/
inductive EvKind where
  | response
  | toolCall
  | toolResponse
  | toolError
  | thinking
deriving DecidableEq, Repr

/-- An event yielded by `Agent.run_stream`. -/
structure Event where
  kind : EvKind
  content : String
deriving DecidableEq, Repr

/-! ## Tool parameter processing (se_agents/tools.py lines 30-85) -/

/-- Association-list lookup, modelling `dict.get`. -/
def dictGet {β : Type} (m : List (String × β)) (k : String) : Option β :=
  match m.find? (fun p => p.1 = k) with
  | some p => some p.2
  | none => none

/-- `Tool._convert_to_list` (tools.py lines 61-85): a string splits at
commas with each piece stripped; a list of strings passes through; any
other value raises `ValueError`. -/
def convertToList : PyValue → Except PyExc (List String)
  | .str s => .ok ((pySplitComma s).map pyStrip)
  | .list l => .ok l
  | _ => .error (.valueError "Value must be a list of strings or a comma-separated string.")

/-- Python's `type(value).__name__` for the modelled values. -/
def pyTypeName : PyValue → String
  | .str _ => "str"
  | .int _ => "int"
  | .bool _ => "bool"
  | .list _ => "list"

/-- Coercion of one raw parameter value to its declared type: the body of
the `for param, value in kwargs.items()` loop of `Tool._process_parameters`
(tools.py lines 37-57). -/
def coerceParam (toolName param : String) (cfg? : Option ParamConfig)
    (value : PyValue) : Except PyExc PyValue :=
  match cfg? with
  -- `if not tool_param:` — the per-parameter config dicts in this repo are
  -- always nonempty, so falsiness coincides with absence from the dict
  | none => .error (.keyError (param ++ " is not a parameter of the tool " ++ toolName))
  | some cfg =>
    match cfg.type? with
    | some "int" =>
      -- `int(value)`
      (match value with
       | .str s =>
         match pyParseInt s with
         | some n => .ok (.int n)
         | none => .error (.valueError
             ("invalid literal for int() with base 10: '" ++ s ++ "'"))
       | .int n => .ok (.int n)
       | .bool b => .ok (.int (if b then 1 else 0))
       | .list _ => .error (.typeError
           "int() argument must be a string, a bytes-like object or a real number, not 'list'"))
    | some "List[string]" => (convertToList value).map .list
    | some "bool" =>
      (match value with
       | .str s =>
         let booleanStr := pyLower (pyStrip s)
         if booleanStr = "true" then .ok (.bool true)
         else if booleanStr = "false" then .ok (.bool false)
         else .error (.valueError (booleanStr ++ " cannot be parsed into boolean"))
       | v => .error (.valueError
           ("Expected a string for boolean parameter '" ++ param ++ "', but got "
             ++ pyTypeName v)))
    | _ => .ok value  -- unknown (or absent) declared type: pass through

/-- The required-parameter check at the top of `Tool._process_parameters`
(tools.py lines 32-34): the first declared parameter that is required but
absent from the call, in declaration order. -/
def firstMissingRequired (parameters : List (String × ParamConfig))
    (kwargs : List (String × PyValue)) : Option String :=
  match parameters.find? (fun p => p.2.required && (dictGet kwargs p.1).isNone) with
  | some p => some p.1
  | none => none

/-- The kwargs-processing loop of `Tool._process_parameters`. -/
def coerceAll (toolName : String) (parameters : List (String × ParamConfig)) :
    List (String × PyValue) → Except PyExc (List (String × PyValue))
  | [] => .ok []
  | (param, value) :: rest => do
    let v ← coerceParam toolName param (dictGet parameters param) value
    let r ← coerceAll toolName parameters rest
    pure ((param, v) :: r)

/-- `Tool._process_parameters` (tools.py lines 30-59). -/
def processParameters (t : ToolDef) (kwargs : List (String × PyValue)) :
    Except PyExc (List (String × PyValue)) :=
  match firstMissingRequired t.parameters kwargs with
  | some name => .error (.valueError ("Missing required parameter: " ++ name))
  | none => coerceAll t.name t.parameters kwargs

/-! ## Concrete tools (se_agents/tools.py) and the demo registry -/

/-- `ThinkTool` (tools.py lines 429-448). -/
def thinkTool : ToolDef :=
  { pyClass := "ThinkTool"
    name := "think"
    description := "Use the tool to think about something. It will not obtain new information or change the database, but just append the thought to the log. Use it when complex reasoning or some cache memory is needed."
    parameters := [("thought",
      { type? := some "string", description := "A thought to think about.", required := true })]
    stream := true
    paramStream := some "thought" }

/-- `FinalOutput` (tools.py lines 490-508). -/
def finalOutputTool : ToolDef :=
  { pyClass := "FinalOutput"
    name := "final_output"
    description := "Use this tool **only** to conclude **your current response cycle**."
    parameters := [("result",
      { type? := some "string", description := "The final result of the task", required := true })]
    stream := true
    paramStream := some "result" }

/-- A plain `Tool` instance named `search` with one required `query`
parameter: the registry entry used by the examples of spec section 8
(`Agent` takes its tool list as configuration). -/
def searchTool : ToolDef :=
  { pyClass := "Tool"
    name := "search"
    description := "Search the web"
    parameters := [("query",
      { type? := some "string", description := "Search query", required := true })] }

/-- The tool used by the parameter round-trip property (spec section 8):
`{count: integer, verbose: boolean, tags: string-list}` in the type
vocabulary of tools.py. -/
def roundTripTool : ToolDef :=
  { pyClass := "Tool"
    name := "round_trip_tool"
    description := "A tool with one parameter of each coercible type"
    parameters :=
      [("count", { type? := some "int", description := "a count", required := true }),
       ("verbose", { type? := some "bool", description := "a flag", required := true }),
       ("tags", { type? := some "List[string]", description := "some tags", required := true })] }

/-- The tool registry used by the concrete scenarios below. -/
def demoTools : List ToolDef := [searchTool, thinkTool, finalOutputTool, roundTripTool]

/-- `Agent._get_tool_by_name` (agent.py lines 455-460). -/
def getToolByName (tools : List ToolDef) (toolName : String) : Option ToolDef :=
  tools.find? (fun t => t.name = toolName)

/-! ## XML fragment parsing

Models `xml.etree.ElementTree.fromstring(f"<root>{content}</root>")` as
used by `Agent._parse_tool_call` (agent.py lines 235-249) on the flat
`<param>value</param>` sequences of the wire protocol.  Attributes,
comments, CDATA and entity references do not occur in this protocol and
parse to an error here (a raw `&` is an XML well-formedness error as in
ElementTree; the error message wording differs from ElementTree's). -/

/-- An immediate child element: its tag and its `text` (the text before
the first sub-element; `none` when empty, as in ElementTree). -/
structure XmlElem where
  tag : String
  text : Option String
deriving DecidableEq, Repr

/-- A character allowed in an element name. -/
def isXmlNameChar (c : Char) : Bool :=
  c.isAlpha || c.isDigit || c = '_' || c = '-' || c = '.' || c = ':'

/-- Parse a sequence of sibling nodes: returns the leading text (if any),
the elements, and the unconsumed rest (which is empty or starts with a
closing tag `</`).  `fuel ≥ cs.length + 1` always suffices. -/
def parseXmlSeq : Nat → List Char → Except String (Option String × List XmlElem × List Char)
  | 0, _ => .error "xml parse: out of fuel"
  | fuel + 1, cs =>
    let t := cs.takeWhile (fun c => c ≠ '<')
    let rest := cs.dropWhile (fun c => c ≠ '<')
    if t.contains '&' then .error "not well-formed: undefined entity"
    else
      let text? : Option String := if t.isEmpty then none else some ⟨t⟩
      match rest with
      | [] => .ok (text?, [], [])
      | '<' :: '/' :: _ => .ok (text?, [], rest)
      | '<' :: more =>
        let name := more.takeWhile isXmlNameChar
        if name.isEmpty then .error "not well-formed: invalid token"
        else
          match more.drop name.length with
          | '>' :: inner => do
            let (innerText, innerElems, r) ← parseXmlSeq fuel inner
            -- the rest must start with the matching closing tag
            match r with
            | '<' :: '/' :: r2 =>
              if listIsPrefixOf name r2 then
                match (r2.drop name.length).dropWhile pyIsSpace with
                | '>' :: afterClose => do
                  let (_tail, sibs, r5) ← parseXmlSeq fuel afterClose
                  -- `_tail` is this element's tail text; ElementTree keeps it
                  -- on the element, the parameter collection never reads it
                  let _ := innerElems
                  .ok (text?, ⟨⟨name⟩, innerText⟩ :: sibs, r5)
                | _ => .error "not well-formed: invalid closing tag"
              else .error ("mismatched tag: expected </" ++ ⟨name⟩ ++ ">")
            | _ => .error ("mismatched tag: unterminated <" ++ ⟨name⟩ ++ ">")
          | '/' :: '>' :: afterClose => do
            let (_tail, sibs, r5) ← parseXmlSeq fuel afterClose
            .ok (text?, ⟨⟨name⟩, none⟩ :: sibs, r5)
          | _ => .error "not well-formed: invalid token"
      | _ :: _ => .error "xml parse: unreachable"

/-- The immediate children of `ET.fromstring("<root>" + content + "</root>")`,
or a parse error. -/
def parseRootChildren (content : String) : Except String (List XmlElem) :=
  match parseXmlSeq (content.toList.length + 1) content.toList with
  | .error e => .error e
  | .ok (_, elems, []) => .ok elems
  | .ok (_, _, _) => .error "mismatched tag: stray closing tag"

/-! ## `Agent._parse_tool_call` (agent.py lines 177-259) -/

/-- The code-block extraction
`re.search(r"```(?:xml|tool_code)?\s*\n?(.*?)\n?```", message, re.DOTALL)`
(agent.py lines 190-194): content of the first fenced block, with an
optional `xml`/`tool_code` language tag and surrounding newlines removed. -/
def extractCodeBlock (message : String) : Option String :=
  match splitAtSub "```".toList message.toList with
  | none => none
  | some (_, afterFence) =>
    let afterLang :=
      if listIsPrefixOf "xml".toList afterFence then afterFence.drop 3
      else if listIsPrefixOf "tool_code".toList afterFence then afterFence.drop 9
      else afterFence
    let contentStart := afterLang.dropWhile pyIsSpace
    match splitAtSub "```".toList contentStart with
    | none => none
    | some (content, _) =>
      -- the lazy group excludes one newline directly before the closing fence
      match content.reverse with
      | '\n' :: r => some ⟨r.reverse⟩
      | _ => some ⟨content⟩

/-- Case-insensitive prefix match; returns the rest after the pattern. -/
def matchCI : List Char → List Char → Option (List Char)
  | [], cs => some cs
  | _ :: _, [] => none
  | p :: ps, c :: cs => if p.toLower = c.toLower then matchCI ps cs else none

/-- Match `<\s*thinking[^>]*>` at the start, returning the rest. -/
def matchOpenThinking : List Char → Option (List Char)
  | '<' :: rest =>
    match matchCI "thinking".toList (rest.dropWhile pyIsSpace) with
    | none => none
    | some r2 =>
      match r2.dropWhile (fun c => c ≠ '>') with
      | '>' :: r3 => some r3
      | _ => none
  | _ => none

/-- Match `<\s*/\s*thinking\s*>` at the start, returning the rest. -/
def matchCloseThinking : List Char → Option (List Char)
  | '<' :: rest =>
    match rest.dropWhile pyIsSpace with
    | '/' :: r2 =>
      match matchCI "thinking".toList (r2.dropWhile pyIsSpace) with
      | none => none
      | some r3 =>
        match r3.dropWhile pyIsSpace with
        | '>' :: r4 => some r4
        | _ => none
    | _ => none
  | _ => none

/-- Earliest position where the closing thinking tag matches (the lazy
`.*?` of the removal regex); returns the rest after the closing tag. -/
def findCloseThinking : Nat → List Char → Option (List Char)
  | 0, _ => none
  | fuel + 1, cs =>
    match matchCloseThinking cs with
    | some r => some r
    | none =>
      match cs with
      | [] => none
      | _ :: rest => findCloseThinking fuel rest

/-- `re.sub(r"<\s*thinking[^>]*>.*?<\s*/\s*thinking\s*>", "", message,
flags=re.DOTALL | re.IGNORECASE)` (agent.py lines 199-204). -/
def removeThinkingAux : Nat → List Char → List Char
  | 0, cs => cs
  | fuel + 1, cs =>
    match cs with
    | [] => []
    | c :: rest =>
      match matchOpenThinking cs with
      | some afterOpen =>
        match findCloseThinking (afterOpen.length + 1) afterOpen with
        | some afterClose => removeThinkingAux fuel afterClose
        | none => c :: removeThinkingAux fuel rest
      | none => c :: removeThinkingAux fuel rest

/-- Thinking-tag removal on strings. -/
def removeThinking (message : String) : String :=
  ⟨removeThinkingAux (message.toList.length + 1) message.toList⟩

/-- `re.search(r"<([^>]+)>(.*?)</\1>", content, re.DOTALL)` (agent.py
lines 209-211): at the first `<`, the name is the maximal nonempty run of
non-`>` characters followed by `>` (a shorter name cannot match, being
followed by a non-`>` character); the content runs to the first matching
closing tag.  Failed starts advance one character, as `re.search` does. -/
def findTagPair : Nat → List Char → Option (String × String)
  | 0, _ => none
  | _, [] => none
  | fuel + 1, c :: rest =>
    if c = '<' then
      let name := rest.takeWhile (fun ch => ch ≠ '>')
      match name, rest.drop name.length with
      | _ :: _, '>' :: body =>
        (match splitAtSub ('<' :: '/' :: (name ++ ['>'])) body with
         | some (content, _) => some (⟨name⟩, ⟨content⟩)
         | none => findTagPair fuel rest)
      | _, _ => findTagPair fuel rest
    else findTagPair fuel rest

/-- `re.search(r"<tool_call>(.*?)</tool_call>", message, re.DOTALL)`:
returns the inner content and the raw matched span. -/
def findToolCallSpan (message : String) : Option (String × String) :=
  match splitAtSub "<tool_call>".toList message.toList with
  | none => none
  | some (_, afterOpen) =>
    match splitAtSub "</tool_call>".toList afterOpen with
    | none => none
    | some (inner, _) =>
      some (⟨inner⟩, "<tool_call>" ++ ⟨inner⟩ ++ "</tool_call>")

/-- Python dict construction with later duplicate keys overwriting
earlier ones in place (`{child.tag: ... for child in root}`). -/
def dictInsert (m : List (String × String)) (k v : String) : List (String × String) :=
  if (dictGet m k).isSome then
    m.map (fun p => if p.1 = k then (p.1, v) else p)
  else m ++ [(k, v)]

/-- The parameter dict collected from the root's children
(agent.py lines 248-250): each child's tag mapped to its stripped text. -/
def childrenDict : List XmlElem → List (String × String)
  | elems => elems.foldl (fun m e =>
      dictInsert m e.tag (match e.text with | some t => pyStrip t | none => "")) []

/-- The result of `Agent._parse_tool_call`.  The declared contract is the
triple `(tool_call, error_message, raw_tool_call_xml)`; the unknown-tool
branch at agent.py line 231 instead returns a two-element tuple, so the
three-way unpacking at every call site raises `ValueError` — modelled by
`pair`. -/
inductive ParseResult where
  | triple (toolCall : Option (String × List (String × String)))
      (errorMessage : Option String) (raw : Option String)
  | pair (toolCall : Option (String × List (String × String))) (errorMessage : Option String)
deriving DecidableEq, Repr

/-- `Agent._parse_tool_call` (agent.py lines 177-259). -/
def parseToolCall (tools : List ToolDef) (message : String) : ParseResult :=
  -- prefer the first fenced code block, if any
  let message := match extractCodeBlock message with
    | some inner => inner
    | none => message
  -- strip thinking tags before looking for a tool call
  let message :=
    if strContains message "<thinking>" || strContains message "</thinking>" then
      removeThinking message
    else message
  match findToolCallSpan message with
  | none => .triple none none none
  | some (toolCallContent, rawToolCallXml) =>
    match findTagPair (toolCallContent.toList.length + 1) toolCallContent.toList with
    | none => .triple none
        (some "Malformed tool call format. Please use the format: <tool_call><tool_name>...</tool_name></tool_call>")
        none
    | some (toolName, toolContent) =>
      match getToolByName tools toolName with
      | none => .pair none (some ("Unknown tool: " ++ toolName))
      | some tool =>
        match parseRootChildren toolContent with
        | .error e => .triple none
            (some ("Malformed XML in tool call: " ++ e ++ " \n Please check the format."))
            (some rawToolCallXml)
        | .ok children =>
          let expectedParams := tool.parameters.map (fun p => p.1)
          let foundTags := children.map (fun c => c.tag)
          -- Python's `found_tags` is a set; subset is order-insensitive.  The
          -- `', '.join(expected_params)` in the error iterates a Python set
          -- (hash order); declaration order is used here.
          if !(foundTags.all (fun t => expectedParams.contains t)) then
            .triple none
              (some ("Unexpected parameters in tool call for " ++ toolName
                ++ ". Expected: " ++ String.intercalate ", " expectedParams))
              (some rawToolCallXml)
          else
            .triple (some (toolName, childrenDict children)) none (some rawToolCallXml)

/-! ## `Agent._execute_tool` (agent.py lines 261-281) -/

/-- `Agent._execute_tool`.  After the registry lookup, line 273 evaluates
`tool.validate_parameters(params)`.  Class `Tool` in se_agents/tools.py
(and every subclass) defines no `validate_parameters` attribute, so the
attribute access raises `AttributeError`; the access happens before the
`try:` block of lines 277-281, so nothing catches it.  The remainder of
the function (the `errors` check, the `tool.execute` call and its
`except Exception` handler) is unreachable for a registered tool. -/
def executeTool (tools : List ToolDef) (toolName : String)
    (_params : List (String × String)) : Except PyExc (String × Bool) :=
  match getToolByName tools toolName with
  | none => .ok ("Unknown tool: " ++ toolName, false)
  | some tool =>
    .error (.attributeError
      ("'" ++ tool.pyClass ++ "' object has no attribute 'validate_parameters'"))

/-! ## Event contents built in se_agents/schemas.py -/

/-- `ToolResponseEvent.from_execution` content (schemas.py line 46). -/
def toolResponseEventContent (result : String) : String :=
  "<tool_response>\n" ++ result ++ "\n</tool_response>\n"

/-- `ToolErrorEvent.from_error` content (schemas.py lines 64-67). -/
def toolErrorEventContent (errorMessage : String) (rawXml : Option String) : String :=
  "<tool_error>\n" ++ errorMessage
    ++ (match rawXml with
        | some raw => "\nRaw XML:\n" ++ raw
        | none => "")
    ++ "\n</tool_error>\n"

/-! ## The history feedback built by `Agent.run_stream` after dispatch
(agent.py lines 435-448) -/

/-- The per-parameter line of the retry hint (agent.py lines 439-444). -/
def paramInfoLine (p : String × ParamConfig) : String :=
  "- " ++ p.1 ++ ": " ++ p.2.description ++ " ("
    ++ (if p.2.required then "required" else "optional")
    ++ ", type: " ++ (match p.2.type? with | some t => t | none => "string") ++ ")"

/-- The message appended to history after a dispatched tool call
(agent.py lines 435-448): always the `<tool_response>` envelope; on
failure, a parameter hint is appended when the tool is registered. -/
def historyFeedback (tools : List ToolDef) (toolName toolResult : String)
    (success : Bool) : String :=
  let historyMessage := "<tool_response>\n" ++ toolResult ++ "\n</tool_response>"
  if success then historyMessage
  else
    match getToolByName tools toolName with
    | some tool =>
      let paramInfo := String.intercalate "\n" (tool.parameters.map paramInfoLine)
      let hint := "\nPlease try again with the correct parameters for " ++ toolName
        ++ ":\n" ++ paramInfo
      historyMessage ++ "\n\n" ++ hint
    | none => historyMessage

/-! ## The tag-aware token buffer of `Agent.run_stream`
(agent.py lines 316-416) -/

/-- The configuration of `Agent.run_stream` that the buffer reads. -/
structure AgentCfg where
  tools : List ToolDef
  wrapResponseChunks : Bool := false

/-- The loop variables of `Agent.run_stream` (agent.py lines 316-327). -/
structure ScanState where
  fullResponse : String
  halted : Bool
  tagFound : Bool
  thinkingFound : Bool
  toolFound : Bool
  tokensSinceHalted : Nat
  haltedTokens : String
  toolCall : Option (String × List (String × String))
  errorMessage : Option String
  rawToolXml : Option String
deriving DecidableEq, Repr

/-- The state at the start of each streamed turn. -/
def initScanState : ScanState :=
  { fullResponse := "", halted := false, tagFound := false, thinkingFound := false
    toolFound := false, tokensSinceHalted := 0, haltedTokens := ""
    toolCall := none, errorMessage := none, rawToolXml := none }

/-- The `</tool_call>` check inside the `if tag_found:` block
(agent.py lines 360-383), operating on the in-token mutable variables. -/
def toolCloseCheck (ag : AgentCfg) (fullResponse : String) (st : ScanState) :
    Except PyExc (List Event × ScanState) :=
  if strContains fullResponse "</tool_call>" && !st.toolFound then
    match parseToolCall ag.tools fullResponse with
    | .pair _ _ =>
      -- line 231 returned a 2-tuple; the 3-way unpacking at line 362 raises
      .error (.valueError "not enough values to unpack (expected 3, got 2)")
    | .triple toolCall errorMessage rawToolXml =>
      let st := { st with tagFound := false, toolCall := toolCall
                          errorMessage := errorMessage, rawToolXml := rawToolXml }
      let (evs1, st) : List Event × ScanState :=
        match errorMessage with
        | some err =>
          ([⟨.toolError, err⟩],
           { st with halted := false, tokensSinceHalted := 0, haltedTokens := "" })
        | none => ([], st)
      let (evs2, st) : List Event × ScanState :=
        match toolCall with
        | some _ =>
          ([⟨.toolCall, match rawToolXml with | some raw => raw | none => ""⟩],
           { st with toolFound := true, halted := false, tokensSinceHalted := 0
                     haltedTokens := "" })
        | none => ([], st)
      .ok (evs1 ++ evs2, st)
  else .ok ([], st)

/-- The `</thinking>` check inside the `if tag_found:` block
(agent.py lines 385-397). -/
def thinkingCloseCheck (fullResponse : String) (st : ScanState) :
    List Event × ScanState :=
  if strContains fullResponse "</thinking>" && !st.thinkingFound then
    ([⟨.thinking, st.haltedTokens⟩],
     { st with tagFound := false, thinkingFound := true, halted := false
               tokensSinceHalted := 0, haltedTokens := "" })
  else ([], st)

/-- Processing of one elementary token (the body of the
`for content in parts:` loop, agent.py lines 333-407). -/
def processToken (ag : AgentCfg) (st : ScanState) (content : String) :
    Except PyExc (List Event × ScanState) :=
  let fullResponse := st.fullResponse ++ content
  let halted := st.halted || strContains content "<"
  if halted then
    let tokensSinceHalted := st.tokensSinceHalted + 1
    let haltedTokens := st.haltedTokens ++ content
    if 5 < tokensSinceHalted && !st.tagFound then
      -- speculative-halt timeout: flush the hold buffer as one response event
      .ok ([⟨.response, haltedTokens⟩],
        { st with fullResponse := fullResponse, halted := false
                  tokensSinceHalted := 0, haltedTokens := "" })
    else
      let tagFound := st.tagFound
        || strContains fullResponse "<tool_call>"
        || strContains fullResponse "<thinking>"
      let st := { st with fullResponse := fullResponse, halted := true
                          tokensSinceHalted := tokensSinceHalted
                          haltedTokens := haltedTokens, tagFound := tagFound }
      if tagFound then
        match toolCloseCheck ag fullResponse st with
        | .error e => .error e
        | .ok (evs1, st) =>
          let (evs2, st) := thinkingCloseCheck fullResponse st
          .ok (evs1 ++ evs2, st)
      else .ok ([], st)
  else
    .ok ([⟨.response,
           if ag.wrapResponseChunks then "<response>" ++ content ++ "</response>"
           else content⟩],
         { st with fullResponse := fullResponse })

/-- Fold `processToken` over a token list.  A raised exception stops the
stream; the events already yielded stand. -/
def scanTokens (ag : AgentCfg) (st : ScanState) :
    List String → List Event × ScanState × Option PyExc
  | [] => ([], st, none)
  | tok :: toks =>
    match processToken ag st tok with
    | .error e => ([], st, some e)
    | .ok (evs, st') =>
      let (evs', st'', exc) := scanTokens ag st' toks
      (evs ++ evs', st'', exc)

/-- The whole chunk loop (agent.py lines 328-407): every upstream fragment
is tokenized by `re.findall(r"(\s*\S+\s*|\s+)", ...)` and the tokens are
processed in order. -/
def runScan (ag : AgentCfg) (chunks : List String) :
    List Event × ScanState × Option PyExc :=
  scanTokens ag initScanState ((chunks.map reSplitTokens).flatten)

/-- `re.search(r"</[^>]+>\s*$", s)` as a Boolean (agent.py line 409):
after trailing whitespace, the string ends with `</name>` for some
nonempty `>`-free `name`.  Works on the reversed string: an initial
`>`-free nonempty segment followed by `/<`. -/
def closeSuffixAux : List Char → Bool
  | '/' :: '<' :: _ => true
  | [] => false
  | c :: rest => decide (c ≠ '>') && closeSuffixAux rest

/-- Whether the response ends with a closing tag (agent.py line 409). -/
def endsWithClosingTag (s : String) : Bool :=
  match s.toList.reverse.dropWhile pyIsSpace with
  | '>' :: c :: rest => decide (c ≠ '>') && closeSuffixAux rest
  | _ => false

/-- The result of one turn of the `while continue_conversation:` loop. -/
structure TurnResult where
  events : List Event
  appended : List Message
  dispatched : List (String × List (String × String))
  exception : Option PyExc
  continueConv : Bool
deriving DecidableEq, Repr

/-- The trailing-newline emission of agent.py lines 409-410. -/
def trailingNewlineEvents (st : ScanState) : List Event :=
  -- lines 409-410: a newline event when the (nonempty) response does not
  -- end in a closing tag
  if pyStrip st.fullResponse ≠ "" && !endsWithClosingTag st.fullResponse then
    [⟨.response, "\n"⟩]
  else []

/-- One turn of `Agent.run_stream` over a given fragment stream: the chunk
loop followed by the end-of-stream logic of agent.py lines 409-453.
`dispatched` records the arguments of each `_execute_tool` call made. -/
def runTurn (ag : AgentCfg) (chunks : List String) : TurnResult :=
  match runScan ag chunks with
  | (evs, _, some e) =>
    { events := evs, appended := [], dispatched := [], exception := some e
      continueConv := false }
  | (evs, st, none) =>
    let evs := evs ++ trailingNewlineEvents st
    if st.fullResponse ≠ "" && pyStrip st.fullResponse ≠ "" then
      let appended := [⟨"response", st.fullResponse⟩]
      match st.errorMessage with
      | some err =>
        let feedback := "Tool call error: " ++ err
          ++ "\n\nPlease try again with the correct format."
        { events := evs ++ [⟨.toolError, feedback⟩]
          appended := appended ++ [⟨"user", feedback⟩]
          dispatched := [], exception := none, continueConv := true }
      | none =>
        match st.toolCall with
        | some (toolName, toolParams) =>
          (match executeTool ag.tools toolName toolParams with
           | .error e =>
             { events := evs, appended := appended
               dispatched := [(toolName, toolParams)], exception := some e
               continueConv := false }
           | .ok (toolResult, success) =>
             let ev : Event :=
               if success then ⟨.toolResponse, toolResult⟩ else ⟨.toolError, toolResult⟩
             { events := evs ++ [ev]
               appended := appended
                 ++ [⟨"user", historyFeedback ag.tools toolName toolResult success⟩]
               dispatched := [(toolName, toolParams)], exception := none
               continueConv := true })
        | none =>
          { events := evs, appended := appended, dispatched := []
            exception := none, continueConv := false }
    else
      { events := evs, appended := [], dispatched := [], exception := none
        continueConv := false }

/-! ## Context-window truncation (agent.py lines 283-298) -/

/-- `Agent.total_token_count`: the number of whitespace-separated words
over all messages' content. -/
def totalTokenCount (msgs : List Message) : Nat :=
  (msgs.map (fun m => (pySplitWS m.content).length)).sum

/-- `Agent._truncate_context_window` (agent.py lines 288-298): while the
count exceeds the limit and more than two messages remain, delete
`messages[1]` (the oldest non-system message). -/
def truncateContextWindow (limit : Nat) (msgs : List Message) : List Message :=
  if limit < totalTokenCount msgs ∧ 2 < msgs.length then
    match msgs with
    | m0 :: _ :: rest => truncateContextWindow limit (m0 :: rest)
    | ms => ms
  else msgs
termination_by msgs.length
decreasing_by simp_all

/-! ## Scaffolding for the statements below -/

/-- The agent configuration used by the concrete scenarios
(`wrap_response_chunks` defaults to `False`). -/
def demoCfg : AgentCfg := { tools := demoTools }

/-- Concatenation of the contents of a list of events, in order. -/
def concatContent (evs : List Event) : String :=
  String.join (evs.map (fun e => e.content))

/-- Whether an event has kind `tool_call`. -/
def isToolCallEvent : Event → Bool
  | ⟨EvKind.toolCall, _⟩ => true
  | _ => false

/-- The number of `tool_call` events in a list. -/
def countToolCallEvents (evs : List Event) : Nat :=
  (evs.filter isToolCallEvent).length

/-- A response delivered one character per upstream fragment. -/
def charFragments (s : String) : List String :=
  s.toList.map fun c => String.mk [c]

/-- The response of the spec's token-boundary-invariance example. -/
def c1Response : String :=
  "Hello <tool_call><search><query>cats</query></search></tool_call>"

/-- A response containing two complete tool-call spans in sequence. -/
def twoToolCallResponse : String :=
  "<tool_call><think><thought>A</thought></think></tool_call> <tool_call><think><thought>B</thought></think></tool_call>"

/-! ## C4 — failure containment of the dispatcher -/

/-- C4: the claim fails and the code is at fault: `_execute_tool` calls
`tool.validate_parameters(params)` (agent.py line 273) on the `Tool`
class of se_agents/tools.py, which defines no such attribute, and the
call sits outside the `try:` block.  Dispatching any registered tool
therefore raises `AttributeError` out of `_execute_tool` instead of
returning a contained `(text, False)` result.  Shown concretely for the
registered `think` tool and generally for every registered tool name. -/
theorem executeTool_raises_for_registered_tools :
    executeTool demoTools "think" [("thought", "hi")] =
      .error (.attributeError "'ThinkTool' object has no attribute 'validate_parameters'")
    ∧ ∀ (tools : List ToolDef) (toolName : String)
        (params : List (String × String)) (tool : ToolDef),
        getToolByName tools toolName = some tool →
        executeTool tools toolName params =
          .error (.attributeError
            ("'" ++ tool.pyClass ++ "' object has no attribute 'validate_parameters'")) := by
  refine ⟨rfl, ?_⟩
  intro tools toolName params tool h
  unfold executeTool
  rw [h]

/-- Witness for C4: the general part applied to the demo registry. -/
theorem executeTool_raises_witness :
    executeTool demoTools "search" [("query", "cats")] =
      .error (.attributeError "'Tool' object has no attribute 'validate_parameters'") :=
  executeTool_raises_for_registered_tools.2 demoTools "search" [("query", "cats")]
    searchTool rfl

/-! ## C5 — the turn-result envelope fed back into history -/

/-- C5 counterexample: for a failed execution of the registered `think`
tool, the message `run_stream` appends to history (agent.py lines
435-448) is wrapped in `<tool_response>`, not in `<tool_error>` as the
claim states; the string `<tool_error>` does not occur in it at all. -/
theorem historyFeedback_failure_not_toolError :
    strContains (historyFeedback demoTools "think" "Tool error: boom" false)
      "<tool_error>" = false
    ∧ listIsPrefixOf "<tool_response>\n".toList
        (historyFeedback demoTools "think" "Tool error: boom" false).toList = true := by
  constructor <;> rfl

/-- C5 (amended): the history feedback after a dispatched tool call is
wrapped in the `<tool_response>` envelope for success and failure alike;
a failed call of a registered tool appends a parameter hint after the
envelope.  The `<tool_error>` envelope exists only as the event content
built by `ToolErrorEvent.from_error` in se_agents/schemas.py, which
`run_stream` does not use for history. -/
theorem historyFeedback_envelope_shape :
    (∀ (tools : List ToolDef) (toolName toolResult : String),
      historyFeedback tools toolName toolResult true =
        "<tool_response>\n" ++ toolResult ++ "\n</tool_response>")
    ∧ (∀ (tools : List ToolDef) (toolName toolResult : String) (tool : ToolDef),
        getToolByName tools toolName = some tool →
        historyFeedback tools toolName toolResult false =
          "<tool_response>\n" ++ toolResult ++ "\n</tool_response>" ++ "\n\n"
            ++ "\nPlease try again with the correct parameters for " ++ toolName ++ ":\n"
            ++ String.intercalate "\n" (tool.parameters.map paramInfoLine))
    ∧ (∀ errorMessage : String,
        toolErrorEventContent errorMessage none =
          "<tool_error>\n" ++ errorMessage ++ "\n</tool_error>\n") := by
  refine ⟨fun tools toolName toolResult => rfl, ?_, ?_⟩
  · intro tools toolName toolResult tool h
    unfold historyFeedback
    rw [h]
    simp only [String.append_assoc, Bool.false_eq_true, if_false]
  · intro errorMessage
    simp only [toolErrorEventContent, String.append_empty]

/-- Witness for C5's amended theorem: instantiated for the `think` tool. -/
theorem historyFeedback_envelope_shape_witness :
    historyFeedback demoTools "think" "boom" false =
      "<tool_response>\nboom\n</tool_response>" ++ "\n\n"
        ++ "\nPlease try again with the correct parameters for think:\n"
        ++ String.intercalate "\n" (thinkTool.parameters.map paramInfoLine) :=
  historyFeedback_envelope_shape.2.1 demoTools "think" "boom" thinkTool rfl

/-! ## C2 — stream reconstruction -/

/-- C2: the claim fails on the code.  For the response `"a<b"` delivered
as one fragment, the turn ends while the buffer is still held: the held
text is never flushed, and line 410 injects a lone newline event, so the
concatenated event content is `"\n"`, not `"a<b"` — the tokens `a<b` are
silently dropped (they survive only in `full_response`). -/
theorem stream_reconstruction_fails :
    (runTurn demoCfg ["a<b"]).events = [⟨.response, "\n"⟩]
    ∧ concatContent (runTurn demoCfg ["a<b"]).events ≠ "a<b"
    ∧ (runScan demoCfg ["a<b"]).2.1.haltedTokens = "a<b"
    ∧ (runScan demoCfg ["a<b"]).2.1.fullResponse = "a<b" := by
  refine ⟨rfl, ?_, rfl, rfl⟩
  decide

/-! ## C7 — end-of-stream handling -/

/-- C7: the claim fails and the code is at fault: agent.py lines 409-416
contain no end-of-stream handling for a held buffer.  For
`"<thinking> hmm"` the stream ends halted with a recognized opening tag
found and no closing tag, yet no `tool_error` event is emitted (only the
injected newline); for `"a <b"` the stream ends halted with no tag
recognized, yet the held `"<b"` is not flushed as a response event. -/
theorem end_of_stream_unhandled :
    (runScan demoCfg ["<thinking> hmm"]).2.1.halted = true
    ∧ (runScan demoCfg ["<thinking> hmm"]).2.1.tagFound = true
    ∧ (runScan demoCfg ["<thinking> hmm"]).2.1.haltedTokens = "<thinking> hmm"
    ∧ (runTurn demoCfg ["<thinking> hmm"]).events = [⟨.response, "\n"⟩]
    ∧ (runScan demoCfg ["a <b"]).2.1.halted = true
    ∧ (runScan demoCfg ["a <b"]).2.1.tagFound = false
    ∧ (runScan demoCfg ["a <b"]).2.1.haltedTokens = "<b"
    ∧ (runTurn demoCfg ["a <b"]).events = [⟨.response, "a "⟩, ⟨.response, "\n"⟩] := by
  refine ⟨rfl, rfl, rfl, rfl, rfl, rfl, rfl, rfl⟩

/-! ## C6 — the speculative-halt bound -/

/-- C6: whenever the buffer is holding (a `<` was seen), no recognized
opening tag has been found, and the token counter passes 5, the whole
held buffer is flushed as a single response event and the buffer returns
to pass-through; and the spec's example `"a < b and c > d"` is emitted
entirely as response events with no `tool_error` event. -/
theorem speculative_halt_flushes_as_prose :
    (∀ (ag : AgentCfg) (st : ScanState) (content : String),
      (st.halted || strContains content "<") = true →
      st.tagFound = false →
      5 < st.tokensSinceHalted + 1 →
      processToken ag st content =
        .ok ([⟨.response, st.haltedTokens ++ content⟩],
          { st with fullResponse := st.fullResponse ++ content, halted := false
                    tokensSinceHalted := 0, haltedTokens := "" }))
    ∧ (runTurn demoCfg ["a < b and c > d"]).events =
        [⟨.response, "a "⟩, ⟨.response, "< b and c > d"⟩, ⟨.response, "\n"⟩]
    ∧ ((runTurn demoCfg ["a < b and c > d"]).events.all
        (fun e => e.kind == EvKind.response)) = true := by
  refine ⟨?_, rfl, rfl⟩
  intro ag st content hhalt htag hcount
  unfold processToken
  rw [hhalt]
  simp only [htag, Bool.not_false, Bool.and_true, if_true]
  rw [if_pos]
  · exact decide_eq_true hcount

/-- Witness for C6: the general flush step applied to a concrete held
state on its sixth token. -/
theorem speculative_halt_flushes_witness :
    processToken demoCfg
      { initScanState with fullResponse := "<a b c d ", halted := true
                           tokensSinceHalted := 5, haltedTokens := "<a b c d " } "e" =
      .ok ([⟨.response, "<a b c d e"⟩],
        { initScanState with fullResponse := "<a b c d e", halted := false
                             tokensSinceHalted := 0, haltedTokens := "" }) := by
  have h := speculative_halt_flushes_as_prose.1 demoCfg
    { initScanState with fullResponse := "<a b c d ", halted := true
                         tokensSinceHalted := 5, haltedTokens := "<a b c d " } "e"
    (by decide) (by decide) (by decide)
  exact h

/-! ## C1 — token-boundary invariance -/

/-- C1: the claim fails and the code is at fault.  The spec's own example
response, fed as a single fragment, yields `response "Hello "` followed
by the tool call; fed one character per fragment, the 5-token speculative
halt expires in the middle of `<tool_call>` and the scanner flushes
`"<tool_"` (and then `c`, `a`, `l`, `l`, `>`) as prose before the tool
call is still detected, so the concatenated event content differs between
the two fragmentations (the raw span is double-counted). -/
theorem token_boundary_invariance_fails :
    (runTurn demoCfg [c1Response]).events =
      [⟨.response, "Hello "⟩,
       ⟨.toolCall, "<tool_call><search><query>cats</query></search></tool_call>"⟩]
    ∧ (runTurn demoCfg (charFragments c1Response)).events =
      [⟨.response, "H"⟩, ⟨.response, "e"⟩, ⟨.response, "l"⟩, ⟨.response, "l"⟩,
       ⟨.response, "o"⟩, ⟨.response, " "⟩, ⟨.response, "<tool_"⟩, ⟨.response, "c"⟩,
       ⟨.response, "a"⟩, ⟨.response, "l"⟩, ⟨.response, "l"⟩, ⟨.response, ">"⟩,
       ⟨.toolCall, "<tool_call><search><query>cats</query></search></tool_call>"⟩]
    ∧ concatContent (runTurn demoCfg [c1Response]).events = c1Response
    ∧ concatContent (runTurn demoCfg (charFragments c1Response)).events ≠
        concatContent (runTurn demoCfg [c1Response]).events := by
  refine ⟨rfl, rfl, rfl, ?_⟩
  decide

/-! ## C3 — at most one tool call per turn -/

/-- Counting `tool_call` events distributes over append. -/
theorem countToolCallEvents_append (a b : List Event) :
    countToolCallEvents (a ++ b) = countToolCallEvents a + countToolCallEvents b := by
  simp [countToolCallEvents, List.filter_append]

/-- Singleton event lists of each non-`tool_call` kind count zero. -/
theorem countToolCallEvents_response (s : String) :
    countToolCallEvents [⟨.response, s⟩] = 0 := rfl

/-- A lone `tool_error` event counts zero. -/
theorem countToolCallEvents_toolError (s : String) :
    countToolCallEvents [⟨.toolError, s⟩] = 0 := rfl

/-- A lone `thinking` event counts zero. -/
theorem countToolCallEvents_thinking (s : String) :
    countToolCallEvents [⟨.thinking, s⟩] = 0 := rfl

/-- A lone `tool_call` event counts one. -/
theorem countToolCallEvents_toolCall (s : String) :
    countToolCallEvents [⟨.toolCall, s⟩] = 1 := rfl

/-- The indicator used by the `tool_found` accounting. -/
def toolFoundInd (st : ScanState) : Nat := if st.toolFound then 1 else 0

/-- `toolCloseCheck` emits a `tool_call` event exactly when it sets
`tool_found`, and never resets the flag. -/
theorem toolCloseCheck_count (ag : AgentCfg) (fr : String) (st : ScanState)
    (evs : List Event) (st' : ScanState)
    (h : toolCloseCheck ag fr st = .ok (evs, st')) :
    countToolCallEvents evs + toolFoundInd st = toolFoundInd st' := by
  unfold toolCloseCheck at h
  by_cases hg : (strContains fr "</tool_call>" && !st.toolFound) = true
  · rw [if_pos hg] at h
    have hst : st.toolFound = false := by
      rcases Bool.and_eq_true .. |>.mp hg with ⟨-, h2⟩
      simpa using h2
    cases hp : parseToolCall ag.tools fr with
    | pair tc em => rw [hp] at h; exact absurd h (by simp)
    | triple tc em raw =>
      rw [hp] at h
      cases em <;> cases tc <;>
        · simp only [Except.ok.injEq, Prod.mk.injEq] at h
          obtain ⟨h1, h2⟩ := h
          subst h1
          subst h2
          simp [countToolCallEvents, toolFoundInd, hst, List.filter, isToolCallEvent]
  · rw [if_neg hg] at h
    simp only [Except.ok.injEq, Prod.mk.injEq] at h
    obtain ⟨h1, h2⟩ := h
    subst h1
    subst h2
    simp [countToolCallEvents]

/-- `thinkingCloseCheck` emits no `tool_call` event and does not change
`tool_found`. -/
theorem thinkingCloseCheck_count (fr : String) (st : ScanState) :
    countToolCallEvents (thinkingCloseCheck fr st).1 = 0
    ∧ (thinkingCloseCheck fr st).2.toolFound = st.toolFound := by
  unfold thinkingCloseCheck
  by_cases hg : (strContains fr "</thinking>" && !st.thinkingFound) = true
  · rw [if_pos hg]
    exact ⟨rfl, rfl⟩
  · rw [if_neg hg]
    exact ⟨rfl, rfl⟩

/-- One token emits a `tool_call` event exactly when it sets `tool_found`
(and `tool_found` is never reset). -/
theorem processToken_count (ag : AgentCfg) (st : ScanState) (content : String)
    (evs : List Event) (st' : ScanState)
    (h : processToken ag st content = .ok (evs, st')) :
    countToolCallEvents evs + toolFoundInd st = toolFoundInd st' := by
  unfold processToken at h
  by_cases h1 : (st.halted || strContains content "<") = true
  · rw [if_pos h1] at h
    by_cases h2 : (decide (5 < st.tokensSinceHalted + 1) && !st.tagFound) = true
    · rw [if_pos h2] at h
      simp only [Except.ok.injEq, Prod.mk.injEq] at h
      obtain ⟨he, hs⟩ := h
      subst he
      subst hs
      simp [countToolCallEvents_response, toolFoundInd]
    · rw [if_neg h2] at h
      by_cases h3 : (st.tagFound
          || strContains (st.fullResponse ++ content) "<tool_call>"
          || strContains (st.fullResponse ++ content) "<thinking>") = true
      · rw [if_pos h3] at h
        cases htc : toolCloseCheck ag (st.fullResponse ++ content)
            { st with fullResponse := st.fullResponse ++ content, halted := true
                      tokensSinceHalted := st.tokensSinceHalted + 1
                      haltedTokens := st.haltedTokens ++ content
                      tagFound := st.tagFound
                        || strContains (st.fullResponse ++ content) "<tool_call>"
                        || strContains (st.fullResponse ++ content) "<thinking>" } with
        | error e =>
          rw [htc] at h
          exact absurd h (by simp)
        | ok p =>
          obtain ⟨evs1, st1⟩ := p
          rw [htc] at h
          simp only [Except.ok.injEq, Prod.mk.injEq] at h
          obtain ⟨he, hs⟩ := h
          subst he
          subst hs
          have hstep1 := toolCloseCheck_count ag (st.fullResponse ++ content) _ evs1 st1 htc
          have hstep2 := thinkingCloseCheck_count (st.fullResponse ++ content) st1
          have h2'' : toolFoundInd (thinkingCloseCheck (st.fullResponse ++ content) st1).2
              = toolFoundInd st1 := by
            simp [toolFoundInd, hstep2.2]
          have hmidtool : toolFoundInd
              { st with fullResponse := st.fullResponse ++ content, halted := true
                        tokensSinceHalted := st.tokensSinceHalted + 1
                        haltedTokens := st.haltedTokens ++ content
                        tagFound := st.tagFound
                          || strContains (st.fullResponse ++ content) "<tool_call>"
                          || strContains (st.fullResponse ++ content) "<thinking>" }
              = toolFoundInd st := by
            simp [toolFoundInd]
          rw [countToolCallEvents_append]
          have h2' := hstep2.1
          omega
      · rw [if_neg h3] at h
        simp only [Except.ok.injEq, Prod.mk.injEq] at h
        obtain ⟨he, hs⟩ := h
        subst he
        subst hs
        simp [countToolCallEvents, toolFoundInd]
  · rw [if_neg h1] at h
    simp only [Except.ok.injEq, Prod.mk.injEq] at h
    obtain ⟨he, hs⟩ := h
    subst he
    subst hs
    simp [countToolCallEvents_response, toolFoundInd]

/-- The accounting extends over a whole token stream. -/
theorem scanTokens_count (ag : AgentCfg) :
    ∀ (toks : List String) (st : ScanState),
      countToolCallEvents (scanTokens ag st toks).1 + toolFoundInd st =
        toolFoundInd (scanTokens ag st toks).2.1 := by
  intro toks
  induction toks with
  | nil => intro st; simp [scanTokens, countToolCallEvents]
  | cons tok toks ih =>
    intro st
    unfold scanTokens
    cases hp : processToken ag st tok with
    | error e => simp [countToolCallEvents]
    | ok p =>
      obtain ⟨evs, st'⟩ := p
      simp only
      cases hrec : scanTokens ag st' toks with
      | mk evs' q =>
        obtain ⟨st'', exc⟩ := q
        simp only
        have hstep := processToken_count ag st tok evs st' hp
        have hrest := ih st'
        rw [hrec] at hrest
        simp only at hrest
        rw [countToolCallEvents_append]
        omega

/-- C3: at most one `tool_call` event is emitted per turn and
`_execute_tool` is invoked at most once per turn, for every agent
configuration and every fragment stream; and on a concrete response
containing two complete tool-call spans only the first is parsed and
handed to the dispatcher. -/
theorem at_most_one_tool_per_turn :
    (∀ (ag : AgentCfg) (chunks : List String),
      countToolCallEvents (runTurn ag chunks).events ≤ 1
      ∧ (runTurn ag chunks).dispatched.length ≤ 1)
    ∧ (runTurn demoCfg [twoToolCallResponse]).dispatched =
        [("think", [("thought", "A")])]
    ∧ (runTurn demoCfg [twoToolCallResponse]).events =
        [⟨.toolCall, "<tool_call><think><thought>A</thought></think></tool_call>"⟩] := by
  refine ⟨?_, rfl, rfl⟩
  intro ag chunks
  have hbound : countToolCallEvents (runScan ag chunks).1 ≤ 1 := by
    have hscan := scanTokens_count ag ((chunks.map reSplitTokens).flatten) initScanState
    have hinit : toolFoundInd initScanState = 0 := rfl
    have hfin : toolFoundInd
        (scanTokens ag initScanState ((chunks.map reSplitTokens).flatten)).2.1 ≤ 1 := by
      unfold toolFoundInd; split <;> omega
    unfold runScan
    omega
  unfold runTurn
  cases hrs : runScan ag chunks with
  | mk evs p =>
    obtain ⟨st, exc⟩ := p
    rw [hrs] at hbound
    simp only at hbound
    cases exc with
    | some e => exact ⟨hbound, by simp⟩
    | none =>
      have hnl : countToolCallEvents (trailingNewlineEvents st) = 0 := by
        unfold trailingNewlineEvents
        split <;> rfl
      simp only
      split
      · -- nonempty response
        cases hem : st.errorMessage with
        | some err =>
          simp only [hem]
          refine ⟨?_, by simp⟩
          rw [countToolCallEvents_append, countToolCallEvents_append,
            countToolCallEvents_toolError, hnl]
          omega
        | none =>
          simp only [hem]
          cases htc : st.toolCall with
          | none =>
            simp only [htc]
            refine ⟨?_, by simp⟩
            rw [countToolCallEvents_append, hnl]
            omega
          | some tc =>
            obtain ⟨toolName, toolParams⟩ := tc
            simp only [htc]
            cases hex : executeTool ag.tools toolName toolParams with
            | error e =>
              simp only [hex]
              refine ⟨?_, by simp⟩
              rw [countToolCallEvents_append, hnl]
              omega
            | ok r =>
              obtain ⟨toolResult, success⟩ := r
              simp only [hex]
              refine ⟨?_, by simp⟩
              have hev : countToolCallEvents
                  [if success then (⟨.toolResponse, toolResult⟩ : Event)
                   else ⟨.toolError, toolResult⟩] = 0 := by
                cases success <;> rfl
              rw [countToolCallEvents_append, countToolCallEvents_append, hnl, hev]
              omega
      · -- empty or all-whitespace response
        refine ⟨?_, by simp⟩
        rw [countToolCallEvents_append, hnl]
        omega

/-! ## C8 — parameter coercion per declared type -/

/-- C8: the spec's round-trip example coerces as claimed, and per
declared type: `bool` accepts exactly the case-insensitive, stripped
strings `true`/`false`; `List[string]` passes a list through unchanged
and splits a comma-separated string into stripped pieces; an unknown
declared type passes the value through unchanged; `int` parses base-10
and errors on failure. -/
theorem parameter_coercion_per_type :
    processParameters roundTripTool
      [("count", .str "3"), ("verbose", .str "true"), ("tags", .str "a, b,c")] =
      .ok [("count", .int 3), ("verbose", .bool true), ("tags", .list ["a", "b", "c"])]
    ∧ (∀ (toolName param d : String) (r : Bool) (s : String) (b : Bool),
        coerceParam toolName param (some ⟨some "bool", d, r⟩) (.str s) = .ok (.bool b) ↔
          ((b = true ∧ pyLower (pyStrip s) = "true")
            ∨ (b = false ∧ pyLower (pyStrip s) = "false")))
    ∧ (∀ (toolName param d : String) (r : Bool) (l : List String),
        coerceParam toolName param (some ⟨some "List[string]", d, r⟩) (.list l) =
          .ok (.list l))
    ∧ (∀ (toolName param d : String) (r : Bool) (s : String),
        coerceParam toolName param (some ⟨some "List[string]", d, r⟩) (.str s) =
          .ok (.list ((pySplitComma s).map pyStrip)))
    ∧ (∀ (toolName param d ty : String) (r : Bool) (v : PyValue),
        ty ≠ "int" → ty ≠ "bool" → ty ≠ "List[string]" →
        coerceParam toolName param (some ⟨some ty, d, r⟩) v = .ok v)
    ∧ coerceParam "t" "count" (some ⟨some "int", "", true⟩) (.str "3") = .ok (.int 3)
    ∧ coerceParam "t" "count" (some ⟨some "int", "", true⟩) (.str "abc") =
        .error (.valueError "invalid literal for int() with base 10: 'abc'") := by
  refine ⟨rfl, ?_, fun _ _ _ _ _ => rfl, fun _ _ _ _ _ => rfl, ?_, rfl, rfl⟩
  · intro toolName param d r s b
    unfold coerceParam
    by_cases hc1 : pyLower (pyStrip s) = "true"
    · simp [hc1, eq_comm]
    · by_cases hc2 : pyLower (pyStrip s) = "false"
      · simp [hc1, hc2, eq_comm]
      · simp [hc1, hc2]
  · intro toolName param d ty r v h1 h2 h3
    unfold coerceParam
    split
    · simp_all
    · next cfg heq =>
      cases heq
      simp only
      split <;> simp_all

/-- Witness for C8: the unknown-type pass-through applied to the declared
type `number` of `MockNumberTool`. -/
theorem parameter_coercion_witness :
    coerceParam "mock_number_tool" "value" (some ⟨some "number", "", true⟩)
      (.str "3.5") = .ok (.str "3.5") :=
  parameter_coercion_per_type.2.2.2.2.1 "mock_number_tool" "value" "" "number" true
    (.str "3.5") (by decide) (by decide) (by decide)

/-! ## C9 / C10 — history truncation -/

/-- The length of Python's whitespace split is the number of maximal
nonempty non-whitespace runs. -/
theorem pySplitWSAux_length :
    ∀ (cs cur : List Char),
      (pySplitWSAux cs cur).length =
        countWordStarts (!cur.isEmpty) cs + (if cur.isEmpty then 0 else 1) := by
  intro cs
  induction cs with
  | nil =>
    intro cur
    cases hc : cur.isEmpty <;> simp [pySplitWSAux, countWordStarts, hc]
  | cons c cs ih =>
    intro cur
    cases hsp : pyIsSpace c <;> cases hc : cur.isEmpty <;>
      (simp [pySplitWSAux, countWordStarts, hsp, hc, ih, List.isEmpty_cons]; try omega)

/-- Word count of one string. -/
theorem pySplitWS_length (s : String) :
    (pySplitWS s).length = countWordStarts false s.toList := by
  simp [pySplitWS, pySplitWSAux_length]

/-- Eviction shape: truncation deletes some number `k` of the oldest
non-system messages, never the head and never the last. -/
theorem truncateContextWindow_shape (limit : Nat) :
    ∀ (n : Nat) (tail : List Message), tail.length ≤ n → ∀ m0 : Message,
      ∃ k, truncateContextWindow limit (m0 :: tail) = m0 :: tail.drop k
        ∧ (tail = [] → k = 0) ∧ (tail ≠ [] → k < tail.length) := by
  intro n
  induction n with
  | zero =>
    intro tail hlen m0
    have htail : tail = [] := List.length_eq_zero.mp (Nat.le_zero.mp hlen)
    subst htail
    refine ⟨0, ?_, fun _ => rfl, fun h => absurd rfl h⟩
    rw [truncateContextWindow.eq_def]
    simp
  | succ n ih =>
    intro tail hlen m0
    rw [truncateContextWindow.eq_def]
    by_cases hg : limit < totalTokenCount (m0 :: tail) ∧ 2 < (m0 :: tail).length
    · rw [if_pos hg]
      cases tail with
      | nil => exact absurd hg.2 (by simp)
      | cons m1 rest =>
        show ∃ k, truncateContextWindow limit (m0 :: rest) = m0 :: (m1 :: rest).drop k
          ∧ ((m1 :: rest) = [] → k = 0) ∧ ((m1 :: rest) ≠ [] → k < (m1 :: rest).length)
        have hlen' : rest.length ≤ n := by
          simp only [List.length_cons] at hlen
          omega
        obtain ⟨k, hk, -, hklt⟩ := ih rest hlen' m0
        refine ⟨k + 1, by simpa using hk, by simp, ?_⟩
        intro
        have hrest : rest ≠ [] := by
          intro hre
          subst hre
          exact absurd hg.2 (by simp)
        have := hklt hrest
        simp only [List.length_cons]
        omega
    · rw [if_neg hg]
      refine ⟨0, by simp, fun _ => rfl, fun h => ?_⟩
      cases tail with
      | nil => exact absurd rfl h
      | cons a b => simp

/-- The loop's postcondition: the result is under budget or has at most
two messages. -/
theorem truncateContextWindow_post (limit : Nat) :
    ∀ (n : Nat) (msgs : List Message), msgs.length ≤ n →
      totalTokenCount (truncateContextWindow limit msgs) ≤ limit
        ∨ (truncateContextWindow limit msgs).length ≤ 2 := by
  intro n
  induction n with
  | zero =>
    intro msgs hlen
    have : msgs = [] := List.length_eq_zero.mp (Nat.le_zero.mp hlen)
    subst this
    rw [truncateContextWindow.eq_def]
    simp
  | succ n ih =>
    intro msgs hlen
    rw [truncateContextWindow.eq_def]
    by_cases hg : limit < totalTokenCount msgs ∧ 2 < msgs.length
    · rw [if_pos hg]
      cases msgs with
      | nil => exact absurd hg.2 (by simp)
      | cons m0 tail =>
        cases tail with
        | nil => exact absurd hg.2 (by simp)
        | cons m1 rest =>
          show totalTokenCount (truncateContextWindow limit (m0 :: rest)) ≤ limit
            ∨ (truncateContextWindow limit (m0 :: rest)).length ≤ 2
          apply ih
          simp only [List.length_cons] at hlen ⊢
          omega
    · rw [if_neg hg]
      omega

/-- Truncation never lengthens the history. -/
theorem truncateContextWindow_length_le (limit : Nat) :
    ∀ (n : Nat) (msgs : List Message), msgs.length ≤ n →
      (truncateContextWindow limit msgs).length ≤ msgs.length := by
  intro n
  induction n with
  | zero =>
    intro msgs hlen
    have : msgs = [] := List.length_eq_zero.mp (Nat.le_zero.mp hlen)
    subst this
    rw [truncateContextWindow.eq_def]
    simp
  | succ n ih =>
    intro msgs hlen
    rw [truncateContextWindow.eq_def]
    by_cases hg : limit < totalTokenCount msgs ∧ 2 < msgs.length
    · rw [if_pos hg]
      cases msgs with
      | nil => exact absurd hg.2 (by simp)
      | cons m0 tail =>
        cases tail with
        | nil => exact absurd hg.2 (by simp)
        | cons m1 rest =>
          show (truncateContextWindow limit (m0 :: rest)).length ≤ (m0 :: m1 :: rest).length
          have := ih (m0 :: rest) (by simp only [List.length_cons] at hlen ⊢; omega)
          simp only [List.length_cons] at this ⊢
          omega
    · rw [if_neg hg]

/-- Dropping strictly less than the whole list preserves the last
element. -/
theorem getLastQ_drop {α : Type} :
    ∀ (l : List α) (k : Nat), k < l.length → (l.drop k).getLast? = l.getLast? := by
  intro l
  induction l with
  | nil => intro k hk; simp at hk
  | cons c cs ih =>
    intro k hk
    cases k with
    | zero => rfl
    | succ k =>
      simp only [List.length_cons, Nat.succ_lt_succ_iff] at hk
      have hcs : cs ≠ [] := by
        intro h
        subst h
        simp at hk
      rw [List.drop_succ_cons, ih k hk]
      cases cs with
      | nil => exact absurd rfl hcs
      | cons b t => simp [List.getLast?_cons_cons]

/-- C9: for every budget at least the size of the system message plus the
last message, truncation keeps the head (system) message, keeps the most
recent message, only removes oldest-first from the non-system messages
(the result's tail is a suffix of the original tail), and ends under
budget. -/
theorem truncation_preserves_system_and_last
    (limit : Nat) (m0 : Message) (tail : List Message)
    (htail : tail ≠ [])
    (hbudget : totalTokenCount [m0, tail.getLast htail] ≤ limit) :
    (truncateContextWindow limit (m0 :: tail)).head? = some m0
    ∧ (truncateContextWindow limit (m0 :: tail)).getLast? = (m0 :: tail).getLast?
    ∧ (truncateContextWindow limit (m0 :: tail)).tail.IsSuffix tail
    ∧ totalTokenCount (truncateContextWindow limit (m0 :: tail)) ≤ limit := by
  obtain ⟨k, hk, -, hklt⟩ :=
    truncateContextWindow_shape limit tail.length tail le_rfl m0
  have hkl : k < tail.length := hklt htail
  have hne : tail.drop k ≠ [] := by
    intro h
    have := congrArg List.length h
    simp only [List.length_drop, List.length_nil] at this
    omega
  have hdrop : (tail.drop k).getLast? = tail.getLast? := getLastQ_drop tail k hkl
  have hlast : (m0 :: tail.drop k).getLast? = (m0 :: tail).getLast? := by
    cases hd : tail.drop k with
    | nil => exact absurd hd hne
    | cons x xs =>
      cases tail with
      | nil => exact absurd rfl htail
      | cons t ts =>
        rw [List.getLast?_cons_cons, List.getLast?_cons_cons, ← hd, hdrop]
  refine ⟨by rw [hk]; rfl, by rw [hk]; exact hlast, by rw [hk]; exact List.drop_suffix k tail, ?_⟩
  rcases truncateContextWindow_post limit (m0 :: tail).length (m0 :: tail) le_rfl with h | h
  · exact h
  · -- the loop stopped at two messages: these are the system and last message
    rw [hk] at h ⊢
    simp only [List.length_cons] at h
    obtain ⟨x, hx⟩ : ∃ x, tail.drop k = [x] := by
      cases hd : tail.drop k with
      | nil => exact absurd hd hne
      | cons x xs =>
        cases xs with
        | nil => exact ⟨x, rfl⟩
        | cons y ys =>
          rw [hd] at h
          simp at h
    have hxlast : x = tail.getLast htail := by
      have h1 := hdrop
      rw [hx] at h1
      have h2 : tail.getLast? = some (tail.getLast htail) := List.getLast?_eq_getLast tail htail
      rw [h2] at h1
      simpa using h1
    rw [hx, hxlast]
    exact hbudget

/-- Witness for C9: a four-message history truncated under budget 3. -/
theorem truncation_preserves_witness :
    ([⟨"user", "a b c"⟩, ⟨"assistant", "d e"⟩, ⟨"user", "f"⟩] : List Message) ≠ []
    ∧ ((truncateContextWindow 3
          [⟨"system", "s"⟩, ⟨"user", "a b c"⟩, ⟨"assistant", "d e"⟩, ⟨"user", "f"⟩]).head? =
        some ⟨"system", "s"⟩
      ∧ (truncateContextWindow 3
          [⟨"system", "s"⟩, ⟨"user", "a b c"⟩, ⟨"assistant", "d e"⟩, ⟨"user", "f"⟩]).getLast? =
        ([⟨"system", "s"⟩, ⟨"user", "a b c"⟩, ⟨"assistant", "d e"⟩,
          ⟨"user", "f"⟩] : List Message).getLast?
      ∧ (truncateContextWindow 3
          [⟨"system", "s"⟩, ⟨"user", "a b c"⟩, ⟨"assistant", "d e"⟩,
            ⟨"user", "f"⟩]).tail.IsSuffix
          [⟨"user", "a b c"⟩, ⟨"assistant", "d e"⟩, ⟨"user", "f"⟩]
      ∧ totalTokenCount (truncateContextWindow 3
          [⟨"system", "s"⟩, ⟨"user", "a b c"⟩, ⟨"assistant", "d e"⟩, ⟨"user", "f"⟩]) ≤ 3) :=
  ⟨by decide,
   truncation_preserves_system_and_last 3 ⟨"system", "s"⟩
     [⟨"user", "a b c"⟩, ⟨"assistant", "d e"⟩, ⟨"user", "f"⟩]
     (by decide) (by decide)⟩

/-- C10: the count governing truncation is exactly the total number of
maximal whitespace-separated words over all messages (not characters),
and truncation changes the history exactly when this count exceeds the
limit while more than two messages remain. -/
theorem token_count_is_word_count :
    (∀ msgs : List Message,
      totalTokenCount msgs =
        (msgs.map (fun m => countWordStarts false m.content.toList)).sum)
    ∧ totalTokenCount [⟨"user", "  two   words "⟩, ⟨"assistant", "and three more"⟩] = 5
    ∧ (∀ (limit : Nat) (msgs : List Message),
        truncateContextWindow limit msgs ≠ msgs ↔
          (limit < totalTokenCount msgs ∧ 2 < msgs.length)) := by
  refine ⟨?_, rfl, ?_⟩
  · intro msgs
    induction msgs with
    | nil => rfl
    | cons m rest ih =>
      simp only [totalTokenCount, List.map_cons, List.sum_cons] at ih ⊢
      rw [pySplitWS_length, ih]
  · intro limit msgs
    constructor
    · intro hne
      by_contra hg
      apply hne
      rw [truncateContextWindow.eq_def]
      rw [if_neg hg]
    · intro hg
      cases msgs with
      | nil => exact absurd hg.2 (by simp)
      | cons m0 tail =>
        cases tail with
        | nil => exact absurd hg.2 (by simp)
        | cons m1 rest =>
          intro heq
          have hlen : (truncateContextWindow limit (m0 :: m1 :: rest)).length
              ≤ (m0 :: rest).length := by
            have hstep : truncateContextWindow limit (m0 :: m1 :: rest)
                = truncateContextWindow limit (m0 :: rest) := by
              rw [truncateContextWindow.eq_def]
              rw [if_pos hg]
            rw [hstep]
            exact truncateContextWindow_length_le limit (m0 :: rest).length
              (m0 :: rest) le_rfl
          rw [heq] at hlen
          simp only [List.length_cons] at hlen
          omega

end SEAgents
